import Mathlib

set_option maxHeartbeats 1000000

/-! Shallow embedding of the resumable paginated crawl engine of
`src/twitter.py` (class `TwitterAPI`), together with the exception
taxonomy of `src/exceptions.py`.  Machine times (`time_now()`,
`publication_datetime` in seconds, `last_tweet_pub_time` in
milliseconds) are modelled as `Nat`; only order comparisons on them
occur in the code, so no floating-point behaviour is at issue.
HTML parsing (`parse_tweets`, BeautifulSoup) is the external Page
Parser of the spec: pages enter the model already parsed, as lists of
item records plus the `has_more_items` / `min_position` response
fields.  The network is modelled by canned response lists consumed in
order. -/

/-- Error taxonomy mirroring `src/exceptions.py`.  `apiStatusError`
models `ApiError(f'URL=... is not available, response_status=...')`,
keeping the URL and the HTTP status as structured data. -/
inductive Err where
  | apiError (msg : String)
  | apiStatusError (url : String) (status : Nat)
  | invalidProfile (profile : String)
  | privateProfile (profile : String)
  | invalidOwnerId (s : String)
  | invalidTaskParams
  | nonCriticalError (msg : String)
  deriving DecidableEq

/-- One parsed item record (a tweet), as produced by `parse_tweets`:
`id` is `int(li.get('data-item-id'))`, `publication_datetime` the
epoch-seconds timestamp, `pubTimeMs` the value stored by the parser in
`twit['stage']['last_tweet_pub_time']` (epoch milliseconds). -/
structure Twit where
  id : Nat
  publication_datetime : Nat
  pubTimeMs : Nat
  deriving DecidableEq

/-- Default item record used only as a `getD` fallback. -/
def dTwit : Twit := ⟨0, 0, 0⟩

/-- Incoming checkpoint (the `stage` dict).  `none` models an absent
key, so `stage.get(k, d)` becomes `field.getD d`. -/
structure StageIn where
  max_position : Option String
  counter : Option Nat
  last_tweet_pub_time : Option Nat
  task_stage : Option Nat
  deriving DecidableEq

/-- The empty checkpoint dict. -/
def emptyStage : StageIn := ⟨none, none, none, none⟩

/-- Checkpoint snapshot attached to an emitted item by `_search`
(lines 331-334 / 369-372): the item's own publication time in ms, the
cursor the page was fetched with, and the running counter.
`task_stage` is only set by `get_owner` (lines 558 / 590). -/
structure StageOut where
  last_tweet_pub_time : Nat
  max_position : String
  counter : Nat
  task_stage : Option Nat
  deriving DecidableEq

/-- An item as yielded by `_search`: the record together with the
checkpoint snapshot stored in its `stage` key. -/
structure EmittedTwit where
  item : Twit
  stage : StageOut
  deriving DecidableEq

/-- One parsed fetch result: `parse_tweets(response['items_html'])`
plus the `has_more_items` and `min_position` response fields.
`response.get('has_more_items', False)` folds an absent key into
`false`; `min_position` keeps absence (`none`) distinct from a
present value, exactly as `response.get('min_position', default)`
does. -/
structure PageResponse where
  twits : List Twit
  has_more_items : Bool
  min_position : Option String
  deriving DecidableEq

/-- Default page, used only as a `getD` fallback. -/
def dPage : PageResponse := ⟨[], false, none⟩

/-- Outbound envelope yielded by the task runners (lines 427-430,
565-568, 597-600): `twits` holds the item (its `stage` key popped),
`stage` the checkpoint snapshot. -/
structure Envelope where
  twits : List Twit
  stage : StageOut
  deriving DecidableEq

/-- Python `str.lstrip()` (kernel-evaluable counterpart of
`String.trimLeft`): drops leading whitespace characters. -/
def lstrip (s : String) : String :=
  ⟨s.data.dropWhile Char.isWhitespace⟩

/-- Python `str.lower()`, used to model `re.I` (ASCII case folding;
the repository only ever feeds ASCII pattern literals). -/
def lowerStr (s : String) : String :=
  ⟨s.data.map Char.toLower⟩

/-- Python `str.startswith(pre)`. -/
def startsWithStr (pre s : String) : Bool :=
  pre.data.isPrefixOf s.data

/-- Python `str.split(sep)` for a single-character separator: always
returns a nonempty list, with empty components between adjacent
separators (`''.split('/') == ['']`). -/
def splitCh (sep : Char) : List Char → List (List Char)
  | [] => [[]]
  | c :: cs =>
    match splitCh sep cs with
    | [] => [[]]
    | r :: rs => if c = sep then [] :: r :: rs else (c :: r) :: rs

/-- Embedding of `TwitterAPI.construct_query` (lines 143-183).
Arguments in source order: `search_query, profile, reply, since,
until, since_id`; Python truthiness of a string is nonemptiness and
of an int is being nonzero.  Raises `ApiError('Query is missing.')`
when the assembled query is empty, else returns the query with
leading whitespace stripped. -/
def construct_query (search_query profile : String) (reply : Bool)
    (since untilD : String) (since_id : Int) : Except Err String :=
  let q1 := if profile ≠ "" then
      search_query ++ ((if reply then " to:" else " from:") ++ profile)
    else search_query
  let q2 := if reply then q1 ++ " filter:replies" else q1
  let q3 := if untilD ≠ "" then q2 ++ (" until:" ++ untilD) else q2
  let q4 := if since ≠ "" then q3 ++ (" since:" ++ since) else q3
  let q5 := if since_id ≠ 0 then q4 ++ (" since_id:" ++ toString since_id) else q4
  if q5 = "" then .error (.apiError "Query is missing.")
  else .ok (lstrip q5)

/-- Character class `[a-zA-Z_0-9]` of the two regexes in `parse_url`
(ASCII letters, digits, underscore). -/
def isWordChar (c : Char) : Bool :=
  c.isAlpha || c.isDigit || c = '_'

/-- Strips a literal character sequence, returning the rest on
success (used to match the literal parts of the URL regex). -/
def stripLit : List Char → List Char → Option (List Char)
  | [], l => some l
  | _ :: _, [] => none
  | c :: cs, d :: ds => if c = d then stripLit cs ds else none

/-- Models Python's `$` anchor (no `re.M`): a match may end at the
end of the string or just before one final newline, so one trailing
newline is discarded before checking the word characters. -/
def dropFinalNewline (l : List Char) : List Char :=
  match l.getLast? with
  | some c => if c = '\n' then l.dropLast else l
  | none => l

/-- Does the suffix starting here match the regex body
`https?:\/\/(www\.)?twitter\.com\/[a-zA-Z_0-9]+$`?  The input is
already lower-cased (modelling `re.I`).  The optional `www.` group
needs no backtracking: consuming it can never forbid a match that
skipping it allows, since `www.` and `twitter.com/` differ at their
first character. -/
def profileUrlSuffix (l : List Char) : Bool :=
  let afterScheme :=
    match stripLit "https://".data l with
    | some r => some r
    | none => stripLit "http://".data l
  match afterScheme with
  | none => false
  | some r1 =>
    let r2 :=
      match stripLit "www.".data r1 with
      | some r => r
      | none => r1
    match stripLit "twitter.com/".data r2 with
    | none => false
    | some r3 =>
      let w := dropFinalNewline r3
      !w.isEmpty && w.all isWordChar

/-- Embedding of `pattern.search(url)` for the compiled profile-URL
regex (lines 114-119): `re.search` succeeds iff the body matches at
some start position; `re.I` is modelled by lower-casing first. -/
def urlSearchMatch (s : String) : Bool :=
  (lowerStr s).data.tails.any profileUrlSuffix

/-- Embedding of `re.search(r'^[a-zA-Z_0-9]+$', url)` (line 123):
anchored at the start, so a full-string match of one or more word
characters, modulo the `$`-before-final-newline quirk. -/
def fullWordMatch (s : String) : Bool :=
  let w := dropFinalNewline s.data
  !w.isEmpty && w.all isWordChar

/-- Embedding of `TwitterAPI.parse_url` (lines 100-126).
`url.split('/').pop(-1)` is the last component of splitting on
`'/'`; Python's `split` always returns a nonempty list, so the
`getD` fallback is never taken. -/
def parse_url (source_url : String) : Except Err String :=
  if startsWithStr "http" source_url then
    if urlSearchMatch source_url then
      .ok ⟨(splitCh '/' source_url.data).getLastD []⟩
    else .error (.invalidProfile source_url)
  else if fullWordMatch source_url then .ok source_url
  else .error (.invalidOwnerId source_url)

example : parse_url "https://twitter.com/Alice" = .ok "Alice" := by rfl
example : parse_url "alice_1" = .ok "alice_1" := by rfl
example : parse_url "http" = .error (.invalidProfile "http") := by rfl
example : parse_url "a!b" = .error (.invalidOwnerId "a!b") := by rfl

/-- `TwitterAPI.RESPONSE_DELAY` (line 56): the fixed retry delay in
seconds. -/
def RESPONSE_DELAY : Nat := 300

/-- `TwitterAPI.SEARCH_URL` (line 69). -/
def SEARCH_URL : String := "https://www.twitter.com/i/search/timeline"

/-- `TwitterAPI.MOBILE_URL` (line 66). -/
def MOBILE_URL : String := "https://mobile.twitter.com/"

/-- Hexadecimal digit for percent-encoding (uppercase, as
`urllib.parse.quote` produces). -/
def hexDigit (n : Nat) : Char :=
  if n < 10 then Char.ofNat (48 + n) else Char.ofNat (55 + n)

/-- `urllib.parse.quote_plus` on one character: unreserved ASCII
characters pass through, a space becomes a plus, everything else is
percent-encoded (ASCII code points; the repository's queries are
ASCII). -/
def quotePlusChar (c : Char) : String :=
  if c.isAlpha || c.isDigit || c = '_' || c = '.' || c = '-' || c = '~' then
    String.singleton c
  else if c = ' ' then "+"
  else ⟨['%', hexDigit (c.toNat / 16), hexDigit (c.toNat % 16)]⟩

/-- `urllib.parse.quote_plus` over a string. -/
def quotePlus (s : String) : String :=
  ⟨(s.data.map fun c => (quotePlusChar c).data).flatten⟩

/-- `urllib.parse.urlencode`: key=value pairs joined with
ampersands. -/
def urlencodePairs (ps : List (String × String)) : String :=
  String.intercalate "&" (ps.map fun p => quotePlus p.1 ++ "=" ++ quotePlus p.2)

/-- Request parameters of `_get_query_response` (lines 213-222):
always `f=tweets` and `q=query`; `max_position` only when the cursor
is nonempty. -/
def searchParams (query max_position : String) : List (String × String) :=
  [("f", "tweets"), ("q", query)] ++
    (if max_position ≠ "" then [("max_position", max_position)] else [])

/-- The request URL assembled by `urlunparse` (lines 225-228): the
search endpoint followed by the encoded query string. -/
def searchUrl (query max_position : String) : String :=
  SEARCH_URL ++ "?" ++ urlencodePairs (searchParams query max_position)

/-- One canned HTTP response: a status code and, for status 200, the
decoded body. -/
structure HttpResponse (α : Type) where
  status : Nat
  body : α

/-- Result of the fetch-with-retry protocol. -/
inductive FetchOutcome (α : Type) where
  | ok (body : α)
  | fail (url : String) (status : Nat)
  | exhausted
  deriving DecidableEq

/-- Observable behaviour of one `_get_query_response` call: the
outcome, how many HTTP requests were issued, and the list of sleep
durations (in seconds) in order. -/
structure FetchTrace (α : Type) where
  outcome : FetchOutcome α
  requests : Nat
  sleeps : List Nat
  deriving DecidableEq

/-- Embedding of `TwitterAPI._get_query_response` (lines 199-283) run
against a canned list of responses consumed in order.  Status 200
returns the decoded body; 503 retries the same request at once
(lines 235-245); 429 sleeps `RESPONSE_DELAY` and retries (lines
248-261); any status in `range(500, 527)` not caught earlier sleeps
the same delay and retries (lines 264-274); anything else raises
`ApiError` carrying the URL and status (lines 276-279).  `exhausted`
marks the model artifact of running out of canned responses. -/
def get_query_response (query max_position : String) :
    List (HttpResponse α) → FetchTrace α
  | [] => ⟨.exhausted, 0, []⟩
  | r :: rest =>
    if r.status = 200 then ⟨.ok r.body, 1, []⟩
    else if r.status = 503 then
      let t := get_query_response query max_position rest
      ⟨t.outcome, t.requests + 1, t.sleeps⟩
    else if r.status = 429 then
      let t := get_query_response query max_position rest
      ⟨t.outcome, t.requests + 1, RESPONSE_DELAY :: t.sleeps⟩
    else if 500 ≤ r.status ∧ r.status < 527 then
      let t := get_query_response query max_position rest
      ⟨t.outcome, t.requests + 1, RESPONSE_DELAY :: t.sleeps⟩
    else ⟨.fail (searchUrl query max_position) r.status, 1, []⟩

/-- One canned response of the mobile-profile page: the HTTP status
and whether the 200 body contains the `div class="protected"` marker
(the body itself is handled by the external HTML parser). -/
structure ProfileResponse where
  status : Nat
  protectedDiv : Bool
  deriving DecidableEq

/-- Result of `check_profile`: success, a raised exception, or the
model artifact of running out of canned responses. -/
inductive ProfileOutcome where
  | ok
  | err (e : Err)
  | exhausted
  deriving DecidableEq

/-- Embedding of `TwitterAPI.check_profile` (lines 437-499) against a
canned response list: 503 retries at once, 429 and `range(500, 527)`
sleep `RESPONSE_DELAY` and retry, 404 raises `InvalidProfile`, any
other non-200 raises `ApiError` with the URL and status; a 200 body
with the protected marker raises `PrivateProfile`, otherwise the
check returns nothing.  Also returns the request count and sleep
durations. -/
def check_profile (profile : String) :
    List ProfileResponse → ProfileOutcome × Nat × List Nat
  | [] => (.exhausted, 0, [])
  | r :: rest =>
    if r.status = 200 then
      (if r.protectedDiv then (.err (.privateProfile profile), 1, [])
       else (.ok, 1, []))
    else if r.status = 503 then
      let t := check_profile profile rest
      (t.1, t.2.1 + 1, t.2.2)
    else if r.status = 429 then
      let t := check_profile profile rest
      (t.1, t.2.1 + 1, RESPONSE_DELAY :: t.2.2)
    else if 500 ≤ r.status ∧ r.status < 527 then
      let t := check_profile profile rest
      (t.1, t.2.1 + 1, RESPONSE_DELAY :: t.2.2)
    else if r.status = 404 then (.err (.invalidProfile profile), 1, [])
    else (.err (.apiStatusError (MOBILE_URL ++ profile) r.status), 1, [])

/-- Emission pass of `_search` over one parsed page (lines 329-335
and 368-373): each item whose pre-checkpoint publication time in ms
is strictly below the watermark (`last_tweet_time >
twit['stage']['last_tweet_pub_time']`) is emitted with the counter
incremented and the page's cursor recorded in its checkpoint
snapshot; items at or above the watermark are skipped.  `w` is the
watermark, `cursor` the `max_position` the page was fetched with,
`c` the running counter. -/
def emitPage (w : Nat) (cursor : String) (c : Nat) : List Twit → List EmittedTwit
  | [] => []
  | t :: ts =>
    if t.pubTimeMs < w then
      ⟨t, ⟨t.pubTimeMs, cursor, c + 1, none⟩⟩ :: emitPage w cursor (c + 1) ts
    else emitPage w cursor c ts

/-- Counter value after an emission pass: the counter increments once
per emitted item. -/
def countAfter (w c : Nat) (ts : List Twit) : Nat :=
  c + (ts.filter fun t => decide (t.pubTimeMs < w)).length

/-- Cursor synthesized when the response has no `min_position` (lines
351-354): `f'TWEET-{max_tweet_id}-{min_tweet_id}'`. -/
def synthCursor (maxTweetId minTweetId : Nat) : String :=
  "TWEET-" ++ (toString maxTweetId ++ ("-" ++ toString minTweetId))

/-- One page fetch of the crawl stream: the cursor (`max_position`)
the request was made with, the parsed response, and the items emitted
for that page. -/
structure FetchRecord where
  cursor : String
  page : PageResponse
  emitted : List EmittedTwit
  deriving DecidableEq

/-- How a `_search` run ended. -/
inductive StreamEnd where
  | noTwits
  | lastPage
  | loopEnd
  | pagesExhausted
  deriving DecidableEq

/-- Observable behaviour of one `_search` invocation: the fetched
pages in order, the final counter, and how the run ended. -/
structure SearchRun where
  records : List FetchRecord
  finalCounter : Nat
  ending : StreamEnd
  deriving DecidableEq

/-- All items yielded by the run, in yield order. -/
def SearchRun.emitted (r : SearchRun) : List EmittedTwit :=
  (r.records.map FetchRecord.emitted).flatten

/-- The `while twits:` pagination loop of `_search` (lines 346-378).
`w` is the watermark, `mid` the remembered `min_tweet_id`
(`twits[0]['id']` of the first page, line 346), `pmp` the previous
response's `min_position`, `pts` the previous page's items, `c` the
counter.  Each iteration advances the cursor to the previous
response's `min_position` or, when absent, to the synthesized
`TWEET-` cursor built from the previous page's last item id and
`mid`, fetches the next canned page, and emits its items filtered
only by the watermark. -/
def searchLoop (w mid : Nat) :
    Option String → List Twit → Nat → List PageResponse →
      List FetchRecord × Nat × StreamEnd
  | _, [], c, _ => ([], c, .loopEnd)
  | _, _ :: _, c, [] => ([], c, .pagesExhausted)
  | pmp, t :: ts, c, p :: rest =>
    let cursor := pmp.getD (synthCursor ((t :: ts).getLastD t).id mid)
    let res := searchLoop w mid p.min_position p.twits
      (countAfter w c p.twits) rest
    (⟨cursor, p, emitPage w cursor c p.twits⟩ :: res.1, res.2)

/-- Embedding of `TwitterAPI._search` (lines 285-378) against a
canned page list.  The checkpoint is read once: `max_position`
(default `''`), `counter` (default 0) and the watermark
`last_tweet_pub_time` (default `nowMs`, modelling
`time_now() * 1000`).  The first page is fetched at the restored
cursor; if it parses to no items the run ends (line 321-322).  Its
items are emitted only when the cursor was nonempty or the response
reported no more items (line 327), and if the latter the run ends
there (line 343); otherwise `min_tweet_id` is remembered and the
pagination loop runs. -/
def searchRun (stage : StageIn) (nowMs : Nat) (pages : List PageResponse) :
    SearchRun :=
  let maxPos := stage.max_position.getD ""
  let c0 := stage.counter.getD 0
  let w := stage.last_tweet_pub_time.getD nowMs
  match pages with
  | [] => ⟨[], c0, .pagesExhausted⟩
  | p :: rest =>
    if p.twits = [] then ⟨[⟨maxPos, p, []⟩], c0, .noTwits⟩
    else
      let gate := maxPos ≠ "" ∨ p.has_more_items = false
      let es := if gate then emitPage w maxPos c0 p.twits else []
      let c1 := if gate then countAfter w c0 p.twits else c0
      if p.has_more_items = false then ⟨[⟨maxPos, p, es⟩], c1, .lastPage⟩
      else
        let mid := (p.twits.headD dTwit).id
        let res := searchLoop w mid p.min_position p.twits c1 rest
        ⟨⟨maxPos, p, es⟩ :: res.1, res.2.1, res.2.2⟩

/-- The runner-side hard stop (lines 424-425, 562-563, 594-595): the
runner pulls items from the stream in order, re-emits them, and on
the first item whose `publication_datetime` is strictly below
`last_execution_time` returns at once without emitting it.  Returns
the emitted prefix and whether the stop fired. -/
def hardStopSplit (searchUntil : Nat) :
    List EmittedTwit → List EmittedTwit × Bool
  | [] => ([], false)
  | e :: rest =>
    if e.item.publication_datetime < searchUntil then ([], true)
    else
      let r := hardStopSplit searchUntil rest
      (e :: r.1, r.2)

/-- Task parameters of the search runner (`search`, lines 380-435):
`kwargs.get('last_execution_time', 0)`, `extra.get('query', '')` and
`extra.get('stage', dict())`. -/
structure SearchArgs where
  last_execution_time : Nat
  query : String
  stage : StageIn
  deriving DecidableEq

/-- How a runner invocation ended. -/
inductive RunResult where
  | completed
  | hardStopped
  | errOut (e : Err)
  | profileGaveUp
  deriving DecidableEq

/-- Observable behaviour of one `search` task run. -/
structure SearchTaskOut where
  run : Option SearchRun
  envelopes : List Envelope
  result : RunResult
  deriving DecidableEq

/-- Embedding of the search runner `TwitterAPI.search` (lines
380-435).  `fmtDate` stands for
`datetime.fromtimestamp(t).strftime('%Y-%m-%d')`, an uninterpreted
date formatter; `since` is empty when `last_execution_time` is zero.
A missing query raises `ApiError` before any fetch; otherwise the
query is built by `construct_query` and the crawl stream is consumed
under the hard stop, each kept item shipped as
`dict(twits=[twit], stage=twit.pop('stage'))`. -/
def search (args : SearchArgs) (fmtDate : Nat → String) (nowMs : Nat)
    (pages : List PageResponse) : SearchTaskOut :=
  let searchUntil := args.last_execution_time
  let since := if searchUntil ≠ 0 then fmtDate searchUntil else ""
  if args.query = "" then ⟨none, [], .errOut (.apiError "Error: Query is missing!")⟩
  else
    match construct_query args.query "" false since "" 0 with
    | .error e => ⟨none, [], .errOut e⟩
    | .ok _q =>
      let run := searchRun args.stage nowMs pages
      let sp := hardStopSplit searchUntil run.emitted
      ⟨some run, sp.1.map fun e => ⟨[e.item], e.stage⟩,
        if sp.2 then .hardStopped else .completed⟩

/-- Task parameters of the owner runner (`get_owner`, lines
501-609): `last_execution_time`, `extra.get('owner_id', '')` and the
checkpoint. -/
structure OwnerArgs where
  last_execution_time : Nat
  owner_id : String
  stage : StageIn
  deriving DecidableEq

/-- One phase of the owner crawl: the query passed to `_search`, the
full stream behaviour, the envelopes emitted under the hard stop,
and whether the hard stop fired. -/
structure PhaseResult where
  query : String
  run : SearchRun
  envelopes : List Envelope
  stopped : Bool
  deriving DecidableEq

/-- Envelope built by `get_owner` for one item (lines 556-568 and
588-600): the item's popped checkpoint snapshot with
`stage['task_stage'] = task_stage` added. -/
def mkOwnerEnv (task_stage : Nat) (e : EmittedTwit) : Envelope :=
  ⟨[e.item], ⟨e.stage.last_tweet_pub_time, e.stage.max_position,
    e.stage.counter, some task_stage⟩⟩

/-- Runs one owner-crawl phase: the crawl stream on the given
checkpoint, consumed under the hard stop, each kept item wrapped
with the phase's `task_stage`. -/
def runPhase (task_stage : Nat) (q : String) (stage : StageIn)
    (nowMs searchUntil : Nat) (pages : List PageResponse) : PhaseResult :=
  let run := searchRun stage nowMs pages
  let sp := hardStopSplit searchUntil run.emitted
  ⟨q, run, sp.1.map (mkOwnerEnv task_stage), sp.2⟩

/-- Observable behaviour of one `get_owner` task run.  `fetchTrace`
lists every search fetch in program order as (query, cursor) pairs;
`stage2` is the checkpoint handed to the phase-2 stream when phase 2
was entered. -/
structure OwnerOut where
  profileChecked : Option ProfileOutcome
  phase1 : Option PhaseResult
  phase2 : Option PhaseResult
  stage2 : Option StageIn
  fetchTrace : List (String × String)
  envelopes : List Envelope
  result : RunResult
  deriving DecidableEq

/-- Fetches of one phase as (query, cursor) pairs. -/
def phaseTrace (p : PhaseResult) : List (String × String) :=
  p.run.records.map fun r => (p.query, r.cursor)

/-- Embedding of the owner runner `TwitterAPI.get_owner` (lines
501-609) against canned profile responses and one shared canned page
list consumed across the phases.  A missing `owner_id` raises
`ApiError`; then `check_profile` gates the run before any search
fetch.  Phase 1 runs only when `stage.get('task_stage', 1) == 1`,
with the task's checkpoint; its hard stop returns from the whole
task.  On normal phase-1 completion the checkpoint is reset to the
empty dict (line 571) and phase 2 runs on the remaining pages with
`task_stage = 2`; when resumed with `task_stage != 1` phase 2 runs
directly on the task's checkpoint. -/
def get_owner (args : OwnerArgs) (fmtDate : Nat → String)
    (profileResponses : List ProfileResponse) (nowMs : Nat)
    (pages : List PageResponse) : OwnerOut :=
  let searchUntil := args.last_execution_time
  let since := if searchUntil ≠ 0 then fmtDate searchUntil else ""
  let profile := args.owner_id
  if profile = "" then
    ⟨none, none, none, none, [], [],
      .errOut (.apiError "Owner_id (profile) is missing.")⟩
  else
    match (check_profile profile profileResponses).1 with
    | .err e => ⟨some (.err e), none, none, none, [], [], .errOut e⟩
    | .exhausted => ⟨some .exhausted, none, none, none, [], [], .profileGaveUp⟩
    | .ok =>
      let task_stage := args.stage.task_stage.getD 1
      if task_stage = 1 then
        match construct_query "" profile false since "" 0 with
        | .error e => ⟨some .ok, none, none, none, [], [], .errOut e⟩
        | .ok q1 =>
          let ph1 := runPhase task_stage q1 args.stage nowMs searchUntil pages
          if ph1.stopped then
            ⟨some .ok, some ph1, none, none, phaseTrace ph1, ph1.envelopes,
              .hardStopped⟩
          else
            match construct_query "" profile true since "" 0 with
            | .error e =>
              ⟨some .ok, some ph1, none, none, phaseTrace ph1, ph1.envelopes,
                .errOut e⟩
            | .ok q2 =>
              let ph2 := runPhase 2 q2 emptyStage nowMs searchUntil
                (pages.drop ph1.run.records.length)
              ⟨some .ok, some ph1, some ph2, some emptyStage,
                phaseTrace ph1 ++ phaseTrace ph2,
                ph1.envelopes ++ ph2.envelopes,
                if ph2.stopped then .hardStopped else .completed⟩
      else
        match construct_query "" profile true since "" 0 with
        | .error e => ⟨some .ok, none, none, none, [], [], .errOut e⟩
        | .ok q2 =>
          let ph2 := runPhase 2 q2 args.stage nowMs searchUntil pages
          ⟨some .ok, none, some ph2, some args.stage, phaseTrace ph2,
            ph2.envelopes, if ph2.stopped then .hardStopped else .completed⟩

theorem String.append_ne_empty_left (s t : String) (h : s ≠ "") : s ++ t ≠ "" := by
  obtain ⟨sd⟩ := s
  obtain ⟨td⟩ := t
  simp only [ne_eq, String.ext_iff] at h ⊢
  intro hc
  exact h (List.append_eq_nil.mp hc).1

theorem String.append_ne_empty_right (s t : String) (h : t ≠ "") : s ++ t ≠ "" := by
  obtain ⟨sd⟩ := s
  obtain ⟨td⟩ := t
  simp only [ne_eq, String.ext_iff] at h ⊢
  intro hc
  exact h (List.append_eq_nil.mp hc).2

theorem hardStopSplit_mem {u : Nat} {es : List EmittedTwit} {e : EmittedTwit}
    (h : e ∈ (hardStopSplit u es).1) :
    e ∈ es ∧ ¬ e.item.publication_datetime < u := by
  induction es with
  | nil => simp [hardStopSplit] at h
  | cons a rest ih =>
    by_cases ha : a.item.publication_datetime < u
    · simp [hardStopSplit, ha] at h
    · simp only [hardStopSplit, if_neg ha, List.mem_cons] at h
      rcases h with h | h
      · exact ⟨by simp [h], h ▸ ha⟩
      · obtain ⟨h1, h2⟩ := ih h
        exact ⟨List.mem_cons_of_mem _ h1, h2⟩

theorem hardStopSplit_eq_takeWhile (u : Nat) (es : List EmittedTwit) :
    (hardStopSplit u es).1 =
      es.takeWhile fun e => !decide (e.item.publication_datetime < u) := by
  induction es with
  | nil => rfl
  | cons a rest ih =>
    by_cases ha : a.item.publication_datetime < u
    · simp [hardStopSplit, ha, List.takeWhile_cons]
    · simp [hardStopSplit, ha, List.takeWhile_cons, ih]

theorem hardStopSplit_stopped (u : Nat) (es : List EmittedTwit) :
    (hardStopSplit u es).2 =
      es.any fun e => decide (e.item.publication_datetime < u) := by
  induction es with
  | nil => rfl
  | cons a rest ih =>
    by_cases ha : a.item.publication_datetime < u
    · simp [hardStopSplit, ha]
    · simp [hardStopSplit, ha, ih]

theorem emitPage_map_item (w : Nat) (cursor : String) (c : Nat) (ts : List Twit) :
    (emitPage w cursor c ts).map EmittedTwit.item =
      ts.filter fun t => decide (t.pubTimeMs < w) := by
  induction ts generalizing c with
  | nil => rfl
  | cons t rest ih =>
    by_cases ht : t.pubTimeMs < w
    · simp [emitPage, ht, ih]
    · simp [emitPage, ht, ih]

theorem emitPage_mem {w : Nat} {cursor : String} {c : Nat} {ts : List Twit}
    {e : EmittedTwit} (h : e ∈ emitPage w cursor c ts) :
    e.item ∈ ts ∧ e.item.pubTimeMs < w ∧
      e.stage.last_tweet_pub_time = e.item.pubTimeMs ∧
      e.stage.max_position = cursor ∧ e.stage.task_stage = none := by
  induction ts generalizing c with
  | nil => simp [emitPage] at h
  | cons t rest ih =>
    by_cases ht : t.pubTimeMs < w
    · simp only [emitPage, if_pos ht, List.mem_cons] at h
      rcases h with h | h
      · subst h
        exact ⟨List.mem_cons_self _ _, ht, rfl, rfl, rfl⟩
      · obtain ⟨h1, h2⟩ := ih h
        exact ⟨List.mem_cons_of_mem _ h1, h2⟩
    · simp only [emitPage, if_neg ht] at h
      obtain ⟨h1, h2⟩ := ih h
      exact ⟨List.mem_cons_of_mem _ h1, h2⟩

theorem searchLoop_mem {w mid : Nat} {pmp : Option String} {pts : List Twit}
    {c : Nat} {pages : List PageResponse} {r : FetchRecord}
    (h : r ∈ (searchLoop w mid pmp pts c pages).1) :
    ∃ c', r.emitted = emitPage w r.cursor c' r.page.twits := by
  induction pages generalizing pmp pts c with
  | nil =>
    cases pts with
    | nil => simp [searchLoop] at h
    | cons t ts => simp [searchLoop] at h
  | cons p rest ih =>
    cases pts with
    | nil => simp [searchLoop] at h
    | cons t ts =>
      simp only [searchLoop, List.mem_cons] at h
      rcases h with h | h
      · subst h
        exact ⟨c, rfl⟩
      · exact ih h

theorem searchRun_records_head (stage : StageIn) (nowMs : Nat)
    (p : PageResponse) (rest : List PageResponse) :
    (searchRun stage nowMs (p :: rest)).records.head? =
      some ⟨stage.max_position.getD "", p,
        if stage.max_position.getD "" ≠ "" ∨ p.has_more_items = false then
          emitPage (stage.last_tweet_pub_time.getD nowMs)
            (stage.max_position.getD "") (stage.counter.getD 0) p.twits
        else []⟩ := by
  by_cases h0 : p.twits = []
  · by_cases hg : stage.max_position.getD "" ≠ "" ∨ p.has_more_items = false
    · simp [searchRun, h0, hg, emitPage]
    · simp [searchRun, h0, hg]
  · by_cases hm : p.has_more_items = false
    · simp [searchRun, h0, hm]
    · simp [searchRun, h0, hm]

theorem searchRun_records_tail_mem {stage : StageIn} {nowMs : Nat}
    {pages : List PageResponse} {r : FetchRecord}
    (h : r ∈ (searchRun stage nowMs pages).records.tail) :
    ∃ c', r.emitted =
      emitPage (stage.last_tweet_pub_time.getD nowMs) r.cursor c' r.page.twits := by
  cases pages with
  | nil => simp [searchRun] at h
  | cons p rest =>
    by_cases h0 : p.twits = []
    · simp [searchRun, h0] at h
    · by_cases hm : p.has_more_items = false
      · simp [searchRun, h0, hm] at h
      · simp only [searchRun, h0, hm] at h
        exact searchLoop_mem (by simpa using h)

theorem searchRun_emitted_facts {stage : StageIn} {nowMs : Nat}
    {pages : List PageResponse} {r : FetchRecord} {e : EmittedTwit}
    (hr : r ∈ (searchRun stage nowMs pages).records) (he : e ∈ r.emitted) :
    e.item ∈ r.page.twits ∧
      e.item.pubTimeMs < stage.last_tweet_pub_time.getD nowMs ∧
      e.stage.last_tweet_pub_time = e.item.pubTimeMs ∧
      e.stage.max_position = r.cursor ∧ e.stage.task_stage = none := by
  cases pages with
  | nil => simp [searchRun] at hr
  | cons p rest =>
    by_cases h0 : p.twits = []
    · simp only [searchRun, if_pos h0, List.mem_singleton] at hr
      subst hr
      simp at he
    · by_cases hm : p.has_more_items = false
      · simp only [searchRun, if_neg h0, if_pos hm, List.mem_singleton] at hr
        subst hr
        by_cases hg : stage.max_position.getD "" ≠ "" ∨ p.has_more_items = false
        · simp only [if_pos hg] at he
          obtain ⟨h1, h2, h3, h4, h5⟩ := emitPage_mem he
          exact ⟨h1, h2, h3, h4, h5⟩
        · simp [if_neg hg] at he
      · simp only [searchRun, if_neg h0, if_neg hm, List.mem_cons] at hr
        rcases hr with hr | hr
        · subst hr
          by_cases hg : stage.max_position.getD "" ≠ "" ∨ p.has_more_items = false
          · simp only [if_pos hg] at he
            obtain ⟨h1, h2, h3, h4, h5⟩ := emitPage_mem he
            exact ⟨h1, h2, h3, h4, h5⟩
          · simp [if_neg hg] at he
        · obtain ⟨c', hc'⟩ := searchLoop_mem hr
          rw [hc'] at he
          obtain ⟨h1, h2, h3, h4, h5⟩ := emitPage_mem he
          exact ⟨h1, h2, h3, h4, h5⟩

/-- The query string assembled by `construct_query` before the
emptiness check (the `query` variable after lines 166-178). -/
def assembled (search_query profile : String) (reply : Bool)
    (since untilD : String) (since_id : Int) : String :=
  let q1 := if profile ≠ "" then
      search_query ++ ((if reply then " to:" else " from:") ++ profile)
    else search_query
  let q2 := if reply then q1 ++ " filter:replies" else q1
  let q3 := if untilD ≠ "" then q2 ++ (" until:" ++ untilD) else q2
  let q4 := if since ≠ "" then q3 ++ (" since:" ++ since) else q3
  if since_id ≠ 0 then q4 ++ (" since_id:" ++ toString since_id) else q4

theorem construct_query_eq (search_query profile : String) (reply : Bool)
    (since untilD : String) (since_id : Int) :
    construct_query search_query profile reply since untilD since_id =
      if assembled search_query profile reply since untilD since_id = "" then
        .error (.apiError "Query is missing.")
      else .ok (lstrip (assembled search_query profile reply since untilD since_id)) := rfl

theorem assembled_eq_empty_iff (search_query profile : String) (reply : Bool)
    (since untilD : String) (since_id : Int) :
    assembled search_query profile reply since untilD since_id = "" ↔
      search_query = "" ∧ profile = "" ∧ reply = false ∧ since = "" ∧
        untilD = "" ∧ since_id = 0 := by
  unfold assembled
  constructor
  · intro h
    by_cases hsid : since_id ≠ 0
    · rw [if_pos hsid] at h
      exact absurd h (String.append_ne_empty_right _ _
        (String.append_ne_empty_left _ _ (by decide)))
    rw [if_neg hsid] at h
    by_cases hsince : since ≠ ""
    · rw [if_pos hsince] at h
      exact absurd h (String.append_ne_empty_right _ _
        (String.append_ne_empty_left _ _ (by decide)))
    rw [if_neg hsince] at h
    by_cases huntil : untilD ≠ ""
    · rw [if_pos huntil] at h
      exact absurd h (String.append_ne_empty_right _ _
        (String.append_ne_empty_left _ _ (by decide)))
    rw [if_neg huntil] at h
    by_cases hrep : reply = true
    · rw [if_pos hrep] at h
      exact absurd h (String.append_ne_empty_right _ _ (by decide))
    rw [if_neg hrep] at h
    by_cases hprof : profile ≠ ""
    · rw [if_pos hprof] at h
      exact absurd h (String.append_ne_empty_right _ _
        (String.append_ne_empty_right _ _ hprof))
    rw [if_neg hprof] at h
    exact ⟨h, not_not.mp hprof, Bool.not_eq_true _ ▸ hrep,
      not_not.mp hsince, not_not.mp huntil, not_not.mp hsid⟩
  · rintro ⟨rfl, rfl, rfl, rfl, rfl, rfl⟩
    rfl

theorem construct_query_profile_ok (search_query profile : String) (reply : Bool)
    (since untilD : String) (since_id : Int) (h : profile ≠ "") :
    ∃ q, construct_query search_query profile reply since untilD since_id = .ok q := by
  rw [construct_query_eq, if_neg]
  · exact ⟨_, rfl⟩
  · intro hc
    exact h ((assembled_eq_empty_iff _ _ _ _ _ _).mp hc).2.1

theorem get_owner_cases (args : OwnerArgs) (fmtDate : Nat → String)
    (prs : List ProfileResponse) (nowMs : Nat) (pages : List PageResponse) :
    (args.owner_id = "" ∧
      get_owner args fmtDate prs nowMs pages =
        ⟨none, none, none, none, [], [],
          .errOut (.apiError "Owner_id (profile) is missing.")⟩) ∨
    (∃ e, (check_profile args.owner_id prs).1 = .err e ∧
      get_owner args fmtDate prs nowMs pages =
        ⟨some (.err e), none, none, none, [], [], .errOut e⟩) ∨
    ((check_profile args.owner_id prs).1 = .exhausted ∧
      get_owner args fmtDate prs nowMs pages =
        ⟨some .exhausted, none, none, none, [], [], .profileGaveUp⟩) ∨
    (∃ q1 ph1, (check_profile args.owner_id prs).1 = .ok ∧
      args.stage.task_stage.getD 1 = 1 ∧
      construct_query "" args.owner_id false
        (if args.last_execution_time ≠ 0 then fmtDate args.last_execution_time
          else "") "" 0 = .ok q1 ∧
      ph1 = runPhase 1 q1 args.stage nowMs args.last_execution_time pages ∧
      ph1.stopped = true ∧
      get_owner args fmtDate prs nowMs pages =
        ⟨some .ok, some ph1, none, none, phaseTrace ph1, ph1.envelopes,
          .hardStopped⟩) ∨
    (∃ q1 q2 ph1 ph2, (check_profile args.owner_id prs).1 = .ok ∧
      args.stage.task_stage.getD 1 = 1 ∧
      construct_query "" args.owner_id false
        (if args.last_execution_time ≠ 0 then fmtDate args.last_execution_time
          else "") "" 0 = .ok q1 ∧
      construct_query "" args.owner_id true
        (if args.last_execution_time ≠ 0 then fmtDate args.last_execution_time
          else "") "" 0 = .ok q2 ∧
      ph1 = runPhase 1 q1 args.stage nowMs args.last_execution_time pages ∧
      ph1.stopped = false ∧
      ph2 = runPhase 2 q2 emptyStage nowMs args.last_execution_time
        (pages.drop ph1.run.records.length) ∧
      get_owner args fmtDate prs nowMs pages =
        ⟨some .ok, some ph1, some ph2, some emptyStage,
          phaseTrace ph1 ++ phaseTrace ph2, ph1.envelopes ++ ph2.envelopes,
          if ph2.stopped then .hardStopped else .completed⟩) ∨
    (∃ q2 ph2, (check_profile args.owner_id prs).1 = .ok ∧
      args.stage.task_stage.getD 1 ≠ 1 ∧
      construct_query "" args.owner_id true
        (if args.last_execution_time ≠ 0 then fmtDate args.last_execution_time
          else "") "" 0 = .ok q2 ∧
      ph2 = runPhase 2 q2 args.stage nowMs args.last_execution_time pages ∧
      get_owner args fmtDate prs nowMs pages =
        ⟨some .ok, none, some ph2, some args.stage, phaseTrace ph2,
          ph2.envelopes, if ph2.stopped then .hardStopped else .completed⟩) := by
  by_cases hpid : args.owner_id = ""
  · exact Or.inl ⟨hpid, by simp [get_owner, hpid]⟩
  · rcases hchk : (check_profile args.owner_id prs).1 with _ | e | _
    · -- profile check passed
      by_cases hts : args.stage.task_stage.getD 1 = 1
      · obtain ⟨q1, hq1⟩ := construct_query_profile_ok "" args.owner_id false
          (if args.last_execution_time ≠ 0 then fmtDate args.last_execution_time
            else "") "" 0 hpid
        obtain ⟨q2, hq2⟩ := construct_query_profile_ok "" args.owner_id true
          (if args.last_execution_time ≠ 0 then fmtDate args.last_execution_time
            else "") "" 0 hpid
        by_cases hstop :
          (runPhase 1 q1 args.stage nowMs args.last_execution_time pages).stopped
        · refine Or.inr (Or.inr (Or.inr (Or.inl
            ⟨q1, _, rfl, hts, hq1, rfl, hstop, ?_⟩)))
          unfold get_owner
          rw [if_neg hpid, hchk]
          dsimp only
          rw [hts, if_pos rfl, hq1]
          dsimp only
          rw [if_pos hstop]
        · refine Or.inr (Or.inr (Or.inr (Or.inr (Or.inl
            ⟨q1, q2, _, _, rfl, hts, hq1, hq2, rfl,
              Bool.not_eq_true _ ▸ hstop, rfl, ?_⟩))))
          unfold get_owner
          rw [if_neg hpid, hchk]
          dsimp only
          rw [hts, if_pos rfl, hq1]
          dsimp only
          rw [if_neg hstop, hq2]
      · obtain ⟨q2, hq2⟩ := construct_query_profile_ok "" args.owner_id true
          (if args.last_execution_time ≠ 0 then fmtDate args.last_execution_time
            else "") "" 0 hpid
        refine Or.inr (Or.inr (Or.inr (Or.inr (Or.inr
          ⟨q2, _, rfl, hts, hq2, rfl, ?_⟩))))
        unfold get_owner
        rw [if_neg hpid, hchk]
        dsimp only
        rw [if_neg hts, hq2]
    · exact Or.inr (Or.inl ⟨e, rfl, by simp [get_owner, hpid, hchk]⟩)
    · exact Or.inr (Or.inr (Or.inl ⟨rfl, by simp [get_owner, hpid, hchk]⟩))

theorem construct_query_ok_of_ne (search_query profile : String) (reply : Bool)
    (since untilD : String) (since_id : Int)
    (h : ¬(search_query = "" ∧ profile = "" ∧ reply = false ∧ since = "" ∧
      untilD = "" ∧ since_id = 0)) :
    ∃ q, construct_query search_query profile reply since untilD since_id = .ok q := by
  rw [construct_query_eq, if_neg]
  · exact ⟨_, rfl⟩
  · intro hc
    exact h ((assembled_eq_empty_iff _ _ _ _ _ _).mp hc)

theorem search_cases (args : SearchArgs) (fmtDate : Nat → String) (nowMs : Nat)
    (pages : List PageResponse) :
    (args.query = "" ∧
      search args fmtDate nowMs pages =
        ⟨none, [], .errOut (.apiError "Error: Query is missing!")⟩) ∨
    (∃ q, args.query ≠ "" ∧
      construct_query args.query "" false
        (if args.last_execution_time ≠ 0 then fmtDate args.last_execution_time
          else "") "" 0 = .ok q ∧
      search args fmtDate nowMs pages =
        ⟨some (searchRun args.stage nowMs pages),
          ((hardStopSplit args.last_execution_time
            (searchRun args.stage nowMs pages).emitted).1).map
              fun e => ⟨[e.item], e.stage⟩,
          if (hardStopSplit args.last_execution_time
            (searchRun args.stage nowMs pages).emitted).2 then
            .hardStopped else .completed⟩) := by
  by_cases hq0 : args.query = ""
  · exact Or.inl ⟨hq0, by simp [search, hq0]⟩
  · obtain ⟨q, hq⟩ := construct_query_ok_of_ne args.query "" false
      (if args.last_execution_time ≠ 0 then fmtDate args.last_execution_time
        else "") "" 0 (fun hall => hq0 hall.1)
    refine Or.inr ⟨q, hq0, hq, ?_⟩
    unfold search
    rw [if_neg hq0]
    dsimp only
    rw [hq]

theorem runPhase_env_pub {k : Nat} {q : String} {stage : StageIn}
    {nowMs u : Nat} {pages : List PageResponse} {env : Envelope} {t : Twit}
    (henv : env ∈ (runPhase k q stage nowMs u pages).envelopes)
    (ht : t ∈ env.twits) : ¬ t.publication_datetime < u := by
  unfold runPhase at henv
  dsimp only at henv
  rw [List.mem_map] at henv
  obtain ⟨e, he, rfl⟩ := henv
  rw [show (mkOwnerEnv k e).twits = [e.item] from rfl, List.mem_singleton] at ht
  subst ht
  exact (hardStopSplit_mem he).2

/-- C1: for every task run of the search runner or the owner runner
with `last_execution_time = T`, no emitted item has
`publication_datetime < T`; the search runner ships exactly the
prefix of the stream's yields preceding the first violating item
(terminating without emitting it), and a hard stop inside the owner
runner's phase 1 leaves phase 2 unentered. -/
theorem C1_hard_stop_boundary (argsS : SearchArgs) (argsO : OwnerArgs)
    (fmtDate : Nat → String) (prs : List ProfileResponse) (nowMs : Nat)
    (pagesS pagesO : List PageResponse) :
    (∀ env ∈ (search argsS fmtDate nowMs pagesS).envelopes, ∀ t ∈ env.twits,
      ¬ t.publication_datetime < argsS.last_execution_time) ∧
    (∀ run, (search argsS fmtDate nowMs pagesS).run = some run →
      (search argsS fmtDate nowMs pagesS).envelopes =
        (run.emitted.takeWhile fun e =>
          !decide (e.item.publication_datetime < argsS.last_execution_time)).map
            fun e => ⟨[e.item], e.stage⟩) ∧
    (∀ env ∈ (get_owner argsO fmtDate prs nowMs pagesO).envelopes, ∀ t ∈ env.twits,
      ¬ t.publication_datetime < argsO.last_execution_time) ∧
    (∀ ph1, (get_owner argsO fmtDate prs nowMs pagesO).phase1 = some ph1 →
      ph1.stopped = true →
      (get_owner argsO fmtDate prs nowMs pagesO).phase2 = none) := by
  refine ⟨?_, ?_, ?_, ?_⟩
  · intro env henv t ht
    rcases search_cases argsS fmtDate nowMs pagesS with ⟨_, heq⟩ | ⟨q, _, _, heq⟩
    · rw [heq] at henv
      simp at henv
    · rw [heq] at henv
      dsimp only at henv
      rw [List.mem_map] at henv
      obtain ⟨e, he, rfl⟩ := henv
      rw [show (⟨[e.item], e.stage⟩ : Envelope).twits = [e.item] from rfl,
        List.mem_singleton] at ht
      subst ht
      exact (hardStopSplit_mem he).2
  · intro run hrun
    rcases search_cases argsS fmtDate nowMs pagesS with ⟨_, heq⟩ | ⟨q, _, _, heq⟩
    · rw [heq] at hrun
      simp at hrun
    · rw [heq] at hrun ⊢
      dsimp only at hrun ⊢
      cases hrun
      rw [hardStopSplit_eq_takeWhile]
  · intro env henv t ht
    rcases get_owner_cases argsO fmtDate prs nowMs pagesO with
      ⟨_, heq⟩ | ⟨e, _, heq⟩ | ⟨_, heq⟩ |
      ⟨q1, ph1, _, _, _, hph1, _, heq⟩ |
      ⟨q1, q2, ph1, ph2, _, _, _, _, hph1, _, hph2, heq⟩ |
      ⟨q2, ph2, _, _, _, hph2, heq⟩
    · rw [heq] at henv
      simp at henv
    · rw [heq] at henv
      simp at henv
    · rw [heq] at henv
      simp at henv
    · rw [heq] at henv
      dsimp only at henv
      subst hph1
      exact runPhase_env_pub henv ht
    · rw [heq] at henv
      dsimp only at henv
      rw [List.mem_append] at henv
      rcases henv with henv | henv
      · subst hph1
        exact runPhase_env_pub henv ht
      · subst hph2
        exact runPhase_env_pub henv ht
    · rw [heq] at henv
      dsimp only at henv
      subst hph2
      exact runPhase_env_pub henv ht
  · intro ph1 hph1 hstop
    rcases get_owner_cases argsO fmtDate prs nowMs pagesO with
      ⟨_, heq⟩ | ⟨e, _, heq⟩ | ⟨_, heq⟩ |
      ⟨q1, ph1', _, _, _, hp, _, heq⟩ |
      ⟨q1, q2, ph1', ph2, _, _, _, _, hp, hns, hp2, heq⟩ |
      ⟨q2, ph2, _, _, _, hp2, heq⟩
    · rw [heq] at hph1
      simp at hph1
    · rw [heq] at hph1
      simp at hph1
    · rw [heq] at hph1
      simp at hph1
    · rw [heq]
    · rw [heq] at hph1
      dsimp only at hph1
      cases hph1
      rw [hns] at hstop
      cases hstop
    · rw [heq] at hph1
      simp at hph1

theorem C1_hard_stop_boundary_witness :
    ¬ (20 : Nat) < 10 ∧
      (get_owner ⟨100, "alice", emptyStage⟩ (fun _ => "2020-01-01")
        [⟨200, false⟩] 1000 [⟨[⟨5, 50, 30⟩], false, none⟩]).phase2 = none := by
  constructor
  · exact (C1_hard_stop_boundary ⟨10, "q", emptyStage⟩ ⟨100, "alice", emptyStage⟩
      (fun _ => "2020-01-01") [⟨200, false⟩] 1000 [⟨[⟨5, 20, 30⟩], false, none⟩]
      [⟨[⟨5, 50, 30⟩], false, none⟩]).1 ⟨[⟨5, 20, 30⟩], ⟨30, "", 1, none⟩⟩
      (by decide) ⟨5, 20, 30⟩ (by decide)
  · exact (C1_hard_stop_boundary ⟨10, "q", emptyStage⟩ ⟨100, "alice", emptyStage⟩
      (fun _ => "2020-01-01") [⟨200, false⟩] 1000 [⟨[⟨5, 20, 30⟩], false, none⟩]
      [⟨[⟨5, 50, 30⟩], false, none⟩]).2.2.2
      (runPhase 1 "from:alice since:2020-01-01" emptyStage 1000 100
        [⟨[⟨5, 50, 30⟩], false, none⟩])
      (by decide) (by decide)

/-- C6: the fetcher classifies each HTTP status as follows: 200
returns the decoded body; 503 retries the same request at once with
no pause; 429 and the remaining statuses in 500-526 pause for the
fixed `RESPONSE_DELAY` (300 s) and retry; any other non-200 status
raises `ApiError` carrying the URL and status.  Consequently the
canned sequence [503, 429, 200] yields exactly 3 requests, exactly
one fixed-delay pause, and the 200 payload. -/
theorem C6_fetch_retry_classification (α : Type) (query maxPos : String)
    (b : α) (r : HttpResponse α) (rest : List (HttpResponse α)) :
    (get_query_response query maxPos ((⟨200, b⟩ : HttpResponse α) :: rest) =
      ⟨.ok b, 1, []⟩) ∧
    (r.status = 503 →
      get_query_response query maxPos (r :: rest) =
        ⟨(get_query_response query maxPos rest).outcome,
          (get_query_response query maxPos rest).requests + 1,
          (get_query_response query maxPos rest).sleeps⟩) ∧
    (r.status = 429 →
      get_query_response query maxPos (r :: rest) =
        ⟨(get_query_response query maxPos rest).outcome,
          (get_query_response query maxPos rest).requests + 1,
          RESPONSE_DELAY :: (get_query_response query maxPos rest).sleeps⟩) ∧
    (r.status ≠ 503 → 500 ≤ r.status → r.status ≤ 526 →
      get_query_response query maxPos (r :: rest) =
        ⟨(get_query_response query maxPos rest).outcome,
          (get_query_response query maxPos rest).requests + 1,
          RESPONSE_DELAY :: (get_query_response query maxPos rest).sleeps⟩) ∧
    (r.status ≠ 200 → r.status ≠ 503 → r.status ≠ 429 →
      ¬(500 ≤ r.status ∧ r.status < 527) →
      get_query_response query maxPos (r :: rest) =
        ⟨.fail (searchUrl query maxPos) r.status, 1, []⟩) ∧
    (get_query_response query maxPos
        [(⟨503, b⟩ : HttpResponse α), ⟨429, b⟩, ⟨200, b⟩] =
      ⟨.ok b, 3, [RESPONSE_DELAY]⟩) := by
  refine ⟨rfl, ?_, ?_, ?_, ?_, rfl⟩
  · intro h
    have h200 : r.status ≠ 200 := by omega
    simp only [get_query_response]
    rw [if_neg h200, if_pos h]
  · intro h
    have h200 : r.status ≠ 200 := by omega
    have h503 : r.status ≠ 503 := by omega
    simp only [get_query_response]
    rw [if_neg h200, if_neg h503, if_pos h]
  · intro h503 h500 h526
    have h200 : r.status ≠ 200 := by omega
    have h429 : r.status ≠ 429 := by omega
    have hrange : 500 ≤ r.status ∧ r.status < 527 := by omega
    simp only [get_query_response]
    rw [if_neg h200, if_neg h503, if_neg h429, if_pos hrange]
  · intro h200 h503 h429 hrange
    simp only [get_query_response]
    rw [if_neg h200, if_neg h503, if_neg h429, if_neg hrange]

theorem C6_fetch_retry_classification_witness :
    (get_query_response "hello" ""
        [(⟨503, 7⟩ : HttpResponse Nat), ⟨429, 7⟩, ⟨200, 7⟩] =
      ⟨.ok 7, 3, [RESPONSE_DELAY]⟩) ∧
    (get_query_response "hello" "" [(⟨418, 7⟩ : HttpResponse Nat)] =
      ⟨.fail (searchUrl "hello" "") 418, 1, []⟩) ∧
    (get_query_response "hello" "" [(⟨500, 7⟩ : HttpResponse Nat)] =
      ⟨(get_query_response "hello" "" ([] : List (HttpResponse Nat))).outcome,
        (get_query_response "hello" "" ([] : List (HttpResponse Nat))).requests + 1,
        RESPONSE_DELAY ::
          (get_query_response "hello" "" ([] : List (HttpResponse Nat))).sleeps⟩) := by
  refine ⟨?_, ?_, ?_⟩
  · exact (C6_fetch_retry_classification Nat "hello" "" 7 ⟨503, 7⟩ []).2.2.2.2.2
  · exact (C6_fetch_retry_classification Nat "hello" "" 7 ⟨418, 7⟩ []).2.2.2.2.1
      (by decide) (by decide) (by decide) (by decide)
  · exact (C6_fetch_retry_classification Nat "hello" "" 7 ⟨500, 7⟩ []).2.2.2.1
      (by decide) (by decide) (by decide)

/-- C7: an HTTP 404 on the mobile-profile page raises
`InvalidProfile` and a protected marker in a 200 body raises
`PrivateProfile`; a 200 body without the marker validates with no
value; and whenever the profile check fails, the owner runner fails
with that error before any search fetch (empty fetch trace, neither
phase entered). -/
theorem C7_profile_gating (profile : String) (b : Bool)
    (rs : List ProfileResponse) (args : OwnerArgs) (fmtDate : Nat → String)
    (prs : List ProfileResponse) (nowMs : Nat) (pages : List PageResponse) :
    ((check_profile profile (⟨404, b⟩ :: rs)).1 = .err (.invalidProfile profile)) ∧
    ((check_profile profile (⟨200, true⟩ :: rs)).1 = .err (.privateProfile profile)) ∧
    ((check_profile profile (⟨200, false⟩ :: rs)).1 = .ok) ∧
    (∀ e, args.owner_id ≠ "" → (check_profile args.owner_id prs).1 = .err e →
      (get_owner args fmtDate prs nowMs pages).fetchTrace = [] ∧
      (get_owner args fmtDate prs nowMs pages).phase1 = none ∧
      (get_owner args fmtDate prs nowMs pages).phase2 = none ∧
      (get_owner args fmtDate prs nowMs pages).result = .errOut e) := by
  refine ⟨rfl, rfl, rfl, ?_⟩
  intro e hpid hchk
  rcases get_owner_cases args fmtDate prs nowMs pages with
    ⟨h0, _⟩ | ⟨e', hchk', heq⟩ | ⟨hchk', _⟩ |
    ⟨q1, ph1, hchk', _, _, _, _, _⟩ |
    ⟨q1, q2, ph1, ph2, hchk', _, _, _, _, _, _, _⟩ |
    ⟨q2, ph2, hchk', _, _, _, _⟩
  · exact absurd h0 hpid
  · rw [hchk] at hchk'
    cases hchk'
    rw [heq]
    exact ⟨rfl, rfl, rfl, rfl⟩
  · rw [hchk] at hchk'
    cases hchk'
  · rw [hchk] at hchk'
    cases hchk'
  · rw [hchk] at hchk'
    cases hchk'
  · rw [hchk] at hchk'
    cases hchk'

theorem C7_profile_gating_witness :
    (get_owner ⟨0, "alice", emptyStage⟩ (fun _ => "") [⟨404, false⟩] 0 []).fetchTrace = [] ∧
    (get_owner ⟨0, "alice", emptyStage⟩ (fun _ => "") [⟨404, false⟩] 0 []).phase1 = none ∧
    (get_owner ⟨0, "alice", emptyStage⟩ (fun _ => "") [⟨404, false⟩] 0 []).phase2 = none ∧
    (get_owner ⟨0, "alice", emptyStage⟩ (fun _ => "") [⟨404, false⟩] 0 []).result =
      .errOut (.invalidProfile "alice") :=
  (C7_profile_gating "alice" false [] ⟨0, "alice", emptyStage⟩ (fun _ => "")
    [⟨404, false⟩] 0 []).2.2.2 (.invalidProfile "alice") (by decide) (by decide)

/-- C5 counterexample: on all-empty inputs the query builder raises
`ApiError('Query is missing.')`, not `InvalidTaskParams` as the claim
states. -/
theorem C5_counterexample :
    construct_query "" "" false "" "" 0 = .error (.apiError "Query is missing.") ∧
    construct_query "" "" false "" "" 0 ≠ .error .invalidTaskParams := by
  refine ⟨rfl, ?_⟩
  intro h
  rw [show construct_query "" "" false "" "" 0 =
    .error (.apiError "Query is missing.") from rfl] at h
  exact absurd (Except.error.inj h) (by decide)

/-- C5 amended: the query builder fails, with
`ApiError('Query is missing.')` (not `InvalidTaskParams`), exactly
when all of its inputs are empty; any input combination yielding a
non-empty query succeeds. -/
theorem C5_amended_empty_query (search_query profile : String) (reply : Bool)
    (since untilD : String) (since_id : Int) (e : Err) :
    (construct_query search_query profile reply since untilD since_id = .error e ↔
      search_query = "" ∧ profile = "" ∧ reply = false ∧ since = "" ∧
        untilD = "" ∧ since_id = 0 ∧ e = .apiError "Query is missing.") ∧
    (¬(search_query = "" ∧ profile = "" ∧ reply = false ∧ since = "" ∧
        untilD = "" ∧ since_id = 0) →
      ∃ q, construct_query search_query profile reply since untilD since_id = .ok q) := by
  refine ⟨⟨?_, ?_⟩, construct_query_ok_of_ne _ _ _ _ _ _⟩
  · intro h
    rw [construct_query_eq] at h
    by_cases ha : assembled search_query profile reply since untilD since_id = ""
    · rw [if_pos ha] at h
      obtain ⟨h1, h2, h3, h4, h5, h6⟩ := (assembled_eq_empty_iff _ _ _ _ _ _).mp ha
      exact ⟨h1, h2, h3, h4, h5, h6, (Except.error.inj h).symm⟩
    · rw [if_neg ha] at h
      cases h
  · rintro ⟨rfl, rfl, rfl, rfl, rfl, rfl, rfl⟩
    rfl

theorem C5_amended_empty_query_witness :
    construct_query "" "" false "" "" 0 = .error (.apiError "Query is missing.") ∧
    (∃ q, construct_query "hello" "" false "" "" 0 = .ok q) := by
  constructor
  · exact (C5_amended_empty_query "" "" false "" "" 0
      (.apiError "Query is missing.")).1.mpr ⟨rfl, rfl, rfl, rfl, rfl, rfl, rfl⟩
  · exact (C5_amended_empty_query "hello" "" false "" "" 0
      (.apiError "Query is missing.")).2 (by simp)

/-- C10 counterexample: the string "http" consists only of ASCII
letters yet `parse_url` raises `InvalidProfile` for it (the
`startswith('http')` branch is checked first), contradicting the
claim's clause that such strings are returned unchanged; the empty
string (vacuously made of word characters only) likewise raises
`InvalidOwnerId` rather than being returned. -/
theorem C10_counterexample :
    "http".data.all isWordChar = true ∧
    parse_url "http" = .error (.invalidProfile "http") ∧
    parse_url "http" ≠ .ok "http" ∧
    parse_url "" = .error (.invalidOwnerId "") := by
  refine ⟨by decide, rfl, ?_, rfl⟩
  intro h
  rw [show parse_url "http" = .error (.invalidProfile "http") from rfl] at h
  cases h

/-- C10 amended: `parse_url` returns the final '/'-separated segment
when the input starts with 'http' and the profile-URL regex matches
somewhere in it (case-insensitively, `$` allowing one final
newline); returns the input unchanged when it does not start with
'http' and fully matches one-or-more word characters (same newline
allowance); raises `InvalidProfile` when it starts with 'http'
without a regex match; and raises `InvalidOwnerId` otherwise. -/
theorem C10_amended_parse_url (s : String) :
    (startsWithStr "http" s = true → urlSearchMatch s = true →
      parse_url s = .ok ⟨(splitCh '/' s.data).getLastD []⟩) ∧
    (startsWithStr "http" s = false → fullWordMatch s = true →
      parse_url s = .ok s) ∧
    (startsWithStr "http" s = true → urlSearchMatch s = false →
      parse_url s = .error (.invalidProfile s)) ∧
    (startsWithStr "http" s = false → fullWordMatch s = false →
      parse_url s = .error (.invalidOwnerId s)) := by
  refine ⟨?_, ?_, ?_, ?_⟩ <;> intro h1 h2 <;> simp [parse_url, h1, h2]

theorem C10_amended_parse_url_witness :
    parse_url "https://twitter.com/Alice" = .ok "Alice" ∧
    parse_url "alice" = .ok "alice" ∧
    parse_url "httpz" = .error (.invalidProfile "httpz") ∧
    parse_url "a!b" = .error (.invalidOwnerId "a!b") :=
  ⟨(C10_amended_parse_url "https://twitter.com/Alice").1 (by decide) (by decide),
   (C10_amended_parse_url "alice").2.1 (by decide) (by decide),
   (C10_amended_parse_url "httpz").2.2.1 (by decide) (by decide),
   (C10_amended_parse_url "a!b").2.2.2 (by decide) (by decide)⟩

/-- C9: within one `_search` invocation the dedup watermark is the
value read once from the checkpoint (`last_tweet_pub_time`, default
the current ms time) and is never reassigned: every emitted item of
every page satisfies it, every item of a continuation page below it
is emitted regardless of earlier emissions, and the checkpoint
attached to an emitted item carries that item's own publication time
rather than feeding back into the filter. -/
theorem C9_watermark_read_once (stage : StageIn) (nowMs : Nat)
    (pages : List PageResponse) :
    (∀ r ∈ (searchRun stage nowMs pages).records, ∀ e ∈ r.emitted,
      e.item.pubTimeMs < stage.last_tweet_pub_time.getD nowMs ∧
        e.stage.last_tweet_pub_time = e.item.pubTimeMs) ∧
    (∀ r ∈ (searchRun stage nowMs pages).records.tail, ∀ t ∈ r.page.twits,
      t.pubTimeMs < stage.last_tweet_pub_time.getD nowMs →
        t ∈ r.emitted.map EmittedTwit.item) := by
  constructor
  · intro r hr e he
    obtain ⟨_, h2, h3, _, _⟩ := searchRun_emitted_facts hr he
    exact ⟨h2, h3⟩
  · intro r hr t ht hw
    obtain ⟨c', hc'⟩ := searchRun_records_tail_mem hr
    rw [hc', emitPage_map_item]
    exact List.mem_filter.mpr ⟨ht, by simpa using hw⟩

theorem C9_watermark_read_once_witness :
    ((⟨⟨10, 1, 5⟩, ⟨5, "c0", 1, none⟩⟩ : EmittedTwit).item.pubTimeMs < 100 ∧
      (⟨⟨10, 1, 5⟩, ⟨5, "c0", 1, none⟩⟩ : EmittedTwit).stage.last_tweet_pub_time =
        (⟨⟨10, 1, 5⟩, ⟨5, "c0", 1, none⟩⟩ : EmittedTwit).item.pubTimeMs) ∧
    (⟨9, 1, 50⟩ : Twit) ∈
      (FetchRecord.emitted ⟨"c1", ⟨[⟨9, 1, 50⟩], false, none⟩,
        [⟨⟨9, 1, 50⟩, ⟨50, "c1", 2, none⟩⟩]⟩).map EmittedTwit.item := by
  constructor
  · exact (C9_watermark_read_once ⟨some "c0", none, none, none⟩ 100
      [⟨[⟨10, 1, 5⟩], true, some "c1"⟩, ⟨[⟨9, 1, 50⟩], false, none⟩]).1
      ⟨"c0", ⟨[⟨10, 1, 5⟩], true, some "c1"⟩, [⟨⟨10, 1, 5⟩, ⟨5, "c0", 1, none⟩⟩]⟩
      (by decide) ⟨⟨10, 1, 5⟩, ⟨5, "c0", 1, none⟩⟩ (by decide)
  · exact (C9_watermark_read_once ⟨some "c0", none, none, none⟩ 100
      [⟨[⟨10, 1, 5⟩], true, some "c1"⟩, ⟨[⟨9, 1, 50⟩], false, none⟩]).2
      ⟨"c1", ⟨[⟨9, 1, 50⟩], false, none⟩, [⟨⟨9, 1, 50⟩, ⟨50, "c1", 2, none⟩⟩]⟩
      (by decide) ⟨9, 1, 50⟩ (by decide) (by decide)

/-- C2 counterexample: a continuation page fetched with an empty
cursor (the previous response carried `min_position = ''`) that
still reports more items nevertheless emits its item (id 99),
refuting the claimed "emitted iff non-empty cursor or last page"
equivalence; the second conjunct records that the claimed gating
condition is false for that page. -/
theorem C2_counterexample :
    (searchRun emptyStage 1000
        [⟨[⟨100, 1, 10⟩], true, some ""⟩, ⟨[⟨99, 1, 20⟩], true, some ""⟩]).records.map
      (fun r => (r.cursor, r.page.has_more_items, r.emitted.map fun e => e.item.id)) =
      [("", true, []), ("", true, [99])] ∧
    ¬(("" : String) ≠ "" ∨ (true : Bool) = false) := by
  exact ⟨rfl, by simp⟩

/-- C2 amended: the cursor/last-page emission gate applies only to
the first page of a `_search` run: its items are emitted (each iff
its publication ms is below the watermark restored from the
checkpoint, default now-in-ms) only when the restored cursor is
non-empty or the page reports no more items; every continuation
page's items are emitted based on the watermark filter alone. -/
theorem C2_amended_emission_gating (stage : StageIn) (nowMs : Nat)
    (pages : List PageResponse) :
    (∀ r, (searchRun stage nowMs pages).records.head? = some r →
      r.emitted.map EmittedTwit.item =
        (if r.cursor ≠ "" ∨ r.page.has_more_items = false then
          r.page.twits.filter fun t =>
            decide (t.pubTimeMs < stage.last_tweet_pub_time.getD nowMs)
        else [])) ∧
    (∀ r ∈ (searchRun stage nowMs pages).records.tail,
      r.emitted.map EmittedTwit.item =
        r.page.twits.filter fun t =>
          decide (t.pubTimeMs < stage.last_tweet_pub_time.getD nowMs)) := by
  constructor
  · intro r hr
    cases pages with
    | nil => simp [searchRun] at hr
    | cons p rest =>
      rw [searchRun_records_head] at hr
      cases Option.some.inj hr
      by_cases hg : stage.max_position.getD "" ≠ "" ∨ p.has_more_items = false
      · simp only [if_pos hg, emitPage_map_item]
      · simp only [if_neg hg, List.map_nil]
  · intro r hr
    obtain ⟨c', hc'⟩ := searchRun_records_tail_mem hr
    rw [hc', emitPage_map_item]

theorem C2_amended_emission_gating_witness :
    (FetchRecord.emitted ⟨"c0", ⟨[⟨10, 1, 5⟩], true, some "c1"⟩,
        [⟨⟨10, 1, 5⟩, ⟨5, "c0", 1, none⟩⟩]⟩).map EmittedTwit.item = [⟨10, 1, 5⟩] ∧
    (FetchRecord.emitted ⟨"c1", ⟨[⟨9, 1, 50⟩], false, none⟩,
        [⟨⟨9, 1, 50⟩, ⟨50, "c1", 2, none⟩⟩]⟩).map EmittedTwit.item = [⟨9, 1, 50⟩] := by
  constructor
  · exact (C2_amended_emission_gating ⟨some "c0", none, none, none⟩ 100
      [⟨[⟨10, 1, 5⟩], true, some "c1"⟩, ⟨[⟨9, 1, 50⟩], false, none⟩]).1
      ⟨"c0", ⟨[⟨10, 1, 5⟩], true, some "c1"⟩, [⟨⟨10, 1, 5⟩, ⟨5, "c0", 1, none⟩⟩]⟩
      (by decide)
  · exact (C2_amended_emission_gating ⟨some "c0", none, none, none⟩ 100
      [⟨[⟨10, 1, 5⟩], true, some "c1"⟩, ⟨[⟨9, 1, 50⟩], false, none⟩]).2
      ⟨"c1", ⟨[⟨9, 1, 50⟩], false, none⟩, [⟨⟨9, 1, 50⟩, ⟨50, "c1", 2, none⟩⟩]⟩
      (by decide)

theorem runPhase_env_shape {k : Nat} {q : String} {stage : StageIn}
    {nowMs u : Nat} {pages : List PageResponse} {env : Envelope}
    (h : env ∈ (runPhase k q stage nowMs u pages).envelopes) :
    ∃ e ∈ (runPhase k q stage nowMs u pages).run.emitted, env = mkOwnerEnv k e := by
  unfold runPhase at h ⊢
  dsimp only at h ⊢
  rw [List.mem_map] at h
  obtain ⟨e, he, rfl⟩ := h
  exact ⟨e, (hardStopSplit_mem he).1, rfl⟩

/-- C8: every envelope emitted by the search runner and the owner
runner contains exactly one item record together with the checkpoint
snapshot the crawl stream attached to that item; for owner crawls
the snapshot additionally carries the current `task_stage` (1 or
2). -/
theorem C8_envelope_shape (argsS : SearchArgs) (argsO : OwnerArgs)
    (fmtDate : Nat → String) (prs : List ProfileResponse) (nowMs : Nat)
    (pagesS pagesO : List PageResponse) :
    (∀ env ∈ (search argsS fmtDate nowMs pagesS).envelopes,
      env.twits.length = 1 ∧
      ∃ run e, (search argsS fmtDate nowMs pagesS).run = some run ∧
        e ∈ run.emitted ∧ env.twits = [e.item] ∧ env.stage = e.stage) ∧
    (∀ env ∈ (get_owner argsO fmtDate prs nowMs pagesO).envelopes,
      env.twits.length = 1 ∧
      ∃ k ph e, (k = 1 ∨ k = 2) ∧
        ((k = 1 ∧ (get_owner argsO fmtDate prs nowMs pagesO).phase1 = some ph) ∨
          (k = 2 ∧ (get_owner argsO fmtDate prs nowMs pagesO).phase2 = some ph)) ∧
        e ∈ ph.run.emitted ∧ env.twits = [e.item] ∧
        env.stage = ⟨e.stage.last_tweet_pub_time, e.stage.max_position,
          e.stage.counter, some k⟩) := by
  constructor
  · intro env henv
    rcases search_cases argsS fmtDate nowMs pagesS with ⟨_, heq⟩ | ⟨q, _, _, heq⟩
    · rw [heq] at henv
      simp at henv
    · rw [heq] at henv ⊢
      dsimp only at henv ⊢
      rw [List.mem_map] at henv
      obtain ⟨e, he, rfl⟩ := henv
      exact ⟨rfl, _, e, rfl, (hardStopSplit_mem he).1, rfl, rfl⟩
  · intro env henv
    rcases get_owner_cases argsO fmtDate prs nowMs pagesO with
      ⟨_, heq⟩ | ⟨e, _, heq⟩ | ⟨_, heq⟩ |
      ⟨q1, ph1, _, _, _, hph1, _, heq⟩ |
      ⟨q1, q2, ph1, ph2, _, _, _, _, hph1, _, hph2, heq⟩ |
      ⟨q2, ph2, _, _, _, hph2, heq⟩
    · rw [heq] at henv
      simp at henv
    · rw [heq] at henv
      simp at henv
    · rw [heq] at henv
      simp at henv
    · rw [heq] at henv ⊢
      dsimp only at henv ⊢
      subst hph1
      obtain ⟨e, he, rfl⟩ := runPhase_env_shape henv
      exact ⟨rfl, 1, _, e, Or.inl rfl, Or.inl ⟨rfl, rfl⟩, he, rfl, rfl⟩
    · rw [heq] at henv ⊢
      dsimp only at henv ⊢
      rw [List.mem_append] at henv
      rcases henv with henv | henv
      · subst hph1
        obtain ⟨e, he, rfl⟩ := runPhase_env_shape henv
        exact ⟨rfl, 1, _, e, Or.inl rfl, Or.inl ⟨rfl, rfl⟩, he, rfl, rfl⟩
      · subst hph2
        obtain ⟨e, he, rfl⟩ := runPhase_env_shape henv
        exact ⟨rfl, 2, _, e, Or.inr rfl, Or.inr ⟨rfl, rfl⟩, he, rfl, rfl⟩
    · rw [heq] at henv ⊢
      dsimp only at henv ⊢
      subst hph2
      obtain ⟨e, he, rfl⟩ := runPhase_env_shape henv
      exact ⟨rfl, 2, _, e, Or.inr rfl, Or.inr ⟨rfl, rfl⟩, he, rfl, rfl⟩

theorem C8_envelope_shape_witness :
    (Envelope.twits ⟨[⟨5, 20, 30⟩], ⟨30, "", 1, none⟩⟩).length = 1 ∧
    (Envelope.twits ⟨[⟨5, 20, 30⟩], ⟨30, "", 1, some 1⟩⟩).length = 1 := by
  constructor
  · exact ((C8_envelope_shape ⟨10, "q", emptyStage⟩ ⟨10, "alice", emptyStage⟩
      (fun _ => "d") [⟨200, false⟩] 1000 [⟨[⟨5, 20, 30⟩], false, none⟩]
      [⟨[⟨5, 20, 30⟩], false, none⟩]).1 ⟨[⟨5, 20, 30⟩], ⟨30, "", 1, none⟩⟩
      (by decide)).1
  · exact ((C8_envelope_shape ⟨10, "q", emptyStage⟩ ⟨10, "alice", emptyStage⟩
      (fun _ => "d") [⟨200, false⟩] 1000 [⟨[⟨5, 20, 30⟩], false, none⟩]
      [⟨[⟨5, 20, 30⟩], false, none⟩]).2 ⟨[⟨5, 20, 30⟩], ⟨30, "", 1, some 1⟩⟩
      (by decide)).1

theorem phaseTrace_fst {p : PhaseResult} {x : String × String}
    (h : x ∈ phaseTrace p) : x.1 = p.query := by
  unfold phaseTrace at h
  rw [List.mem_map] at h
  obtain ⟨r, _, rfl⟩ := h
  rfl

/-- C3: with a checkpoint `task_stage` in the data model's domain
(1 or 2), the phase-2 query is issued only after phase 1 ended
without a hard stop or the run was resumed directly with
`task_stage = 2`; on normal phase-1 completion the checkpoint passed
to phase 2 is the empty dict; a hard stop inside phase 1 returns
from the whole task with no phase 2; and the fetch trace decomposes
into all phase-1 fetches followed by all phase-2 fetches, so phase 1
is never re-entered once phase 2 has started. -/
theorem C3_owner_phase_ordering (args : OwnerArgs) (fmtDate : Nat → String)
    (prs : List ProfileResponse) (nowMs : Nat) (pages : List PageResponse)
    (hts : args.stage.task_stage.getD 1 = 1 ∨ args.stage.task_stage.getD 1 = 2) :
    (∀ ph2, (get_owner args fmtDate prs nowMs pages).phase2 = some ph2 →
      (args.stage.task_stage.getD 1 = 2 ∧
        (get_owner args fmtDate prs nowMs pages).phase1 = none) ∨
      (∃ ph1, (get_owner args fmtDate prs nowMs pages).phase1 = some ph1 ∧
        ph1.stopped = false)) ∧
    (∀ ph1, (get_owner args fmtDate prs nowMs pages).phase1 = some ph1 →
      ph1.stopped = false →
      (get_owner args fmtDate prs nowMs pages).stage2 = some emptyStage) ∧
    (∀ ph1, (get_owner args fmtDate prs nowMs pages).phase1 = some ph1 →
      ph1.stopped = true →
      (get_owner args fmtDate prs nowMs pages).phase2 = none ∧
        (get_owner args fmtDate prs nowMs pages).result = .hardStopped) ∧
    (∃ l1 l2, (get_owner args fmtDate prs nowMs pages).fetchTrace = l1 ++ l2 ∧
      (∀ x ∈ l1, ∃ ph1, (get_owner args fmtDate prs nowMs pages).phase1 = some ph1 ∧
        x.1 = ph1.query) ∧
      (∀ x ∈ l2, ∃ ph2, (get_owner args fmtDate prs nowMs pages).phase2 = some ph2 ∧
        x.1 = ph2.query)) := by
  rcases get_owner_cases args fmtDate prs nowMs pages with
    ⟨_, heq⟩ | ⟨e, _, heq⟩ | ⟨_, heq⟩ |
    ⟨q1, ph1, _, _, _, hph1, hstop, heq⟩ |
    ⟨q1, q2, ph1, ph2, _, _, _, _, hph1, hns, hph2, heq⟩ |
    ⟨q2, ph2, _, hts1, _, hph2, heq⟩
  · rw [heq]
    refine ⟨?_, ?_, ?_, [], [], rfl, ?_, ?_⟩
    · intro ph2' h
      cases h
    · intro ph1' h
      cases h
    · intro ph1' h
      cases h
    · intro x hx
      cases hx
    · intro x hx
      cases hx
  · rw [heq]
    refine ⟨?_, ?_, ?_, [], [], rfl, ?_, ?_⟩
    · intro ph2' h
      cases h
    · intro ph1' h
      cases h
    · intro ph1' h
      cases h
    · intro x hx
      cases hx
    · intro x hx
      cases hx
  · rw [heq]
    refine ⟨?_, ?_, ?_, [], [], rfl, ?_, ?_⟩
    · intro ph2' h
      cases h
    · intro ph1' h
      cases h
    · intro ph1' h
      cases h
    · intro x hx
      cases hx
    · intro x hx
      cases hx
  · rw [heq]
    refine ⟨?_, ?_, ?_, phaseTrace ph1, [], (List.append_nil _).symm, ?_, ?_⟩
    · intro ph2' h
      cases h
    · intro ph1' h hns'
      cases Option.some.inj h
      rw [hstop] at hns'
      cases hns'
    · intro ph1' h _
      exact ⟨rfl, rfl⟩
    · intro x hx
      exact ⟨ph1, rfl, phaseTrace_fst hx⟩
    · intro x hx
      cases hx
  · rw [heq]
    refine ⟨?_, ?_, ?_, phaseTrace ph1, phaseTrace ph2, rfl, ?_, ?_⟩
    · intro ph2' h
      exact Or.inr ⟨ph1, rfl, hns⟩
    · intro ph1' h _
      rfl
    · intro ph1' h hstop'
      cases Option.some.inj h
      rw [hns] at hstop'
      cases hstop'
    · intro x hx
      exact ⟨ph1, rfl, phaseTrace_fst hx⟩
    · intro x hx
      exact ⟨ph2, rfl, phaseTrace_fst hx⟩
  · rw [heq]
    refine ⟨?_, ?_, ?_, [], phaseTrace ph2, rfl, ?_, ?_⟩
    · intro ph2' h
      exact Or.inl ⟨hts.resolve_left hts1, rfl⟩
    · intro ph1' h
      cases h
    · intro ph1' h
      cases h
    · intro x hx
      cases hx
    · intro x hx
      exact ⟨ph2, rfl, phaseTrace_fst hx⟩

theorem C3_owner_phase_ordering_witness :
    (get_owner ⟨0, "alice", emptyStage⟩ (fun _ => "") [⟨200, false⟩] 1000
      [⟨[⟨5, 20, 30⟩], false, none⟩]).stage2 = some emptyStage ∧
    ((get_owner ⟨100, "bob", emptyStage⟩ (fun _ => "2020-01-01") [⟨200, false⟩] 1000
      [⟨[⟨5, 50, 30⟩], false, none⟩]).phase2 = none ∧
    (get_owner ⟨100, "bob", emptyStage⟩ (fun _ => "2020-01-01") [⟨200, false⟩] 1000
      [⟨[⟨5, 50, 30⟩], false, none⟩]).result = .hardStopped) := by
  refine ⟨?_, ?_⟩
  · exact (C3_owner_phase_ordering ⟨0, "alice", emptyStage⟩ (fun _ => "")
      [⟨200, false⟩] 1000 [⟨[⟨5, 20, 30⟩], false, none⟩] (by decide)).2.1
      (runPhase 1 "from:alice" emptyStage 1000 0 [⟨[⟨5, 20, 30⟩], false, none⟩])
      (by decide) (by decide)
  · exact (C3_owner_phase_ordering ⟨100, "bob", emptyStage⟩ (fun _ => "2020-01-01")
      [⟨200, false⟩] 1000 [⟨[⟨5, 50, 30⟩], false, none⟩] (by decide)).2.2.1
      (runPhase 1 "from:bob since:2020-01-01" emptyStage 1000 100
        [⟨[⟨5, 50, 30⟩], false, none⟩])
      (by decide) (by decide)

/-- C4 counterexample: with a first page of item ids [10, 5]
(newest-first) and no server `min_position`, the next fetch uses
cursor "TWEET-5-10" — prefix TWEET (not RANGE) and second component
10, the first page's first-listed id, not the minimum id 5 — so the
claimed "RANGE-5-5" synthesis is wrong on both counts. -/
theorem C4_counterexample :
    ((searchRun emptyStage 1000
        [⟨[⟨10, 1, 5⟩, ⟨5, 1, 3⟩], true, none⟩, ⟨[], false, none⟩]).records.map
      FetchRecord.cursor) = ["", "TWEET-5-10"] ∧
    ("TWEET-5-10" : String) ≠ "RANGE-5-5" := by
  exact ⟨rfl, by decide⟩

theorem searchLoop_pair (w mid : Nat) :
    ∀ (pages : List PageResponse) (pmp : Option String) (pts : List Twit)
      (c i : Nat) (r r' : FetchRecord),
      (searchLoop w mid pmp pts c pages).1[i]? = some r →
      (searchLoop w mid pmp pts c pages).1[i + 1]? = some r' →
      r.page.min_position = none →
      r'.cursor = synthCursor ((r.page.twits.getLastD dTwit).id) mid := by
  intro pages
  induction pages with
  | nil =>
    intro pmp pts c i r r' hi hi' hmp
    cases pts <;> simp [searchLoop] at hi
  | cons p rest ih =>
    intro pmp pts c i r r' hi hi' hmp
    cases pts with
    | nil => simp [searchLoop] at hi
    | cons t ts =>
      simp only [searchLoop] at hi hi'
      cases i with
      | zero =>
        rw [List.getElem?_cons_zero, Option.some.injEq] at hi
        rw [List.getElem?_cons_succ] at hi'
        subst hi
        cases hpt : p.twits with
        | nil =>
          rw [hpt] at hi'
          cases rest <;> simp [searchLoop] at hi'
        | cons t2 ts2 =>
          rw [hpt] at hi'
          cases rest with
          | nil => simp [searchLoop] at hi'
          | cons p2 rest2 =>
            simp only [searchLoop, List.getElem?_cons_zero, Option.some.injEq] at hi'
            subst hi'
            dsimp only at hmp ⊢
            rw [hmp, Option.getD_none, List.getLastD_cons, List.getLastD_cons]
      | succ j =>
        rw [List.getElem?_cons_succ] at hi hi'
        exact ih p.min_position p.twits (countAfter w c p.twits) j r r' hi hi' hmp

/-- C4 amended: when a page that has more items carries no
`min_position`, the next fetch's cursor is synthesized as
`TWEET-{oldest item id of the current page}-{first-listed item id of
the very first page}` (the code's `min_tweet_id`, remembered once
from `twits[0]` before pagination starts and reused in every
synthesized cursor of the run); the synthesis is a pure function of
the pages, hence deterministic. -/
theorem C4_amended_cursor_synthesis (stage : StageIn) (nowMs : Nat)
    (pages : List PageResponse) (i : Nat) (r0 r r' : FetchRecord)
    (h0 : (searchRun stage nowMs pages).records.head? = some r0)
    (hi : (searchRun stage nowMs pages).records[i]? = some r)
    (hi' : (searchRun stage nowMs pages).records[i + 1]? = some r')
    (hmp : r.page.min_position = none) :
    r'.cursor = synthCursor ((r.page.twits.getLastD dTwit).id)
      ((r0.page.twits.headD dTwit).id) := by
  cases pages with
  | nil => simp [searchRun] at hi
  | cons p rest =>
    by_cases hpt0 : p.twits = []
    · simp only [searchRun, if_pos hpt0] at hi'
      simp at hi'
    · by_cases hmore : p.has_more_items = false
      · simp only [searchRun, if_neg hpt0, if_pos hmore] at hi'
        simp at hi'
      · simp only [searchRun, if_neg hpt0, if_neg hmore] at h0 hi hi'
        rw [List.head?_cons, Option.some.injEq] at h0
        subst h0
        cases i with
        | zero =>
          rw [List.getElem?_cons_zero, Option.some.injEq] at hi
          rw [List.getElem?_cons_succ] at hi'
          subst hi
          cases hpt : p.twits with
          | nil => exact absurd hpt hpt0
          | cons t2 ts2 =>
            rw [hpt] at hi'
            cases rest with
            | nil => simp [searchLoop] at hi'
            | cons p2 rest2 =>
              simp only [searchLoop, List.getElem?_cons_zero, Option.some.injEq] at hi'
              subst hi'
              dsimp only at hmp ⊢
              rw [hmp, Option.getD_none, List.getLastD_cons, List.getLastD_cons]
        | succ j =>
          rw [List.getElem?_cons_succ] at hi hi'
          exact searchLoop_pair _ _ rest p.min_position p.twits _ j r r' hi hi' hmp

theorem C4_amended_cursor_synthesis_witness :
    ("TWEET-5-10" : String) = synthCursor 5 10 ∧
    ("TWEET-3-10" : String) = synthCursor 3 10 := by
  constructor
  · exact C4_amended_cursor_synthesis ⟨some "c0", none, none, none⟩ 100
      [⟨[⟨10, 1, 5⟩, ⟨5, 1, 3⟩], true, none⟩, ⟨[⟨3, 1, 2⟩], true, none⟩,
        ⟨[], false, none⟩] 0
      ⟨"c0", ⟨[⟨10, 1, 5⟩, ⟨5, 1, 3⟩], true, none⟩,
        [⟨⟨10, 1, 5⟩, ⟨5, "c0", 1, none⟩⟩, ⟨⟨5, 1, 3⟩, ⟨3, "c0", 2, none⟩⟩]⟩
      ⟨"c0", ⟨[⟨10, 1, 5⟩, ⟨5, 1, 3⟩], true, none⟩,
        [⟨⟨10, 1, 5⟩, ⟨5, "c0", 1, none⟩⟩, ⟨⟨5, 1, 3⟩, ⟨3, "c0", 2, none⟩⟩]⟩
      ⟨"TWEET-5-10", ⟨[⟨3, 1, 2⟩], true, none⟩,
        [⟨⟨3, 1, 2⟩, ⟨2, "TWEET-5-10", 3, none⟩⟩]⟩
      (by decide) (by decide) (by decide) (by decide)
  · exact C4_amended_cursor_synthesis ⟨some "c0", none, none, none⟩ 100
      [⟨[⟨10, 1, 5⟩, ⟨5, 1, 3⟩], true, none⟩, ⟨[⟨3, 1, 2⟩], true, none⟩,
        ⟨[], false, none⟩] 1
      ⟨"c0", ⟨[⟨10, 1, 5⟩, ⟨5, 1, 3⟩], true, none⟩,
        [⟨⟨10, 1, 5⟩, ⟨5, "c0", 1, none⟩⟩, ⟨⟨5, 1, 3⟩, ⟨3, "c0", 2, none⟩⟩]⟩
      ⟨"TWEET-5-10", ⟨[⟨3, 1, 2⟩], true, none⟩,
        [⟨⟨3, 1, 2⟩, ⟨2, "TWEET-5-10", 3, none⟩⟩]⟩
      ⟨"TWEET-3-10", ⟨[], false, none⟩, []⟩
      (by decide) (by decide) (by decide) (by decide)
